import Mathlib

/-!
Verification of the pot-cli fuzz-testing harness (`src/main.rs`) against its
design specification.

The harness invokes a sandboxed wasm target with random 64-bit seeds, records
(seed, hash) pairs in a HyperLogLog-style estimator, persists the estimator as
a JSON snapshot, and offers a `verify` mode replaying recorded pairs.

Shallow embedding conventions:
- 64-bit machine integers become `Nat`; the only place width matters is the
  sentinel comparison `result == u64::MAX`, written against `UMAX = 2^64 - 1`,
  and the bit-slicing inside the estimator's `add`, written with explicit
  `% 2^k` / `/ 2^k`.
- `anyhow::Result<A>` becomes `Except String A`; the inner
  `Result<u64, String>` outcome of a run becomes `Except String Nat`.
- External collaborators (the wasmtime call, `String::from_utf8`,
  `serde_json`, the digest inside the estimator) are fields of an `Env σ`
  record, where `σ` is the abstract wasmtime store state; theorems quantify
  over them.
- The filesystem is a read map `String → Option Bytes`; writes performed by a
  command are returned as an explicit trace of `(path, bytes)` events, and
  messages printed by the fuzz loop's error arm are returned as a trace of
  strings. Banner prints ("Fuzzing target...", "Start count...") carry no
  logic and are not modelled.
- The random number generator of the Test branch is external (`StdRng`); the
  fuzz loop is modelled over the list of seeds it draws, whose length is the
  iteration count.
-/

deriving instance DecidableEq for Except

/-- Byte strings, as exchanged with the filesystem and the wasi pipes. -/
abbrev Bytes := List Nat

/-- The sentinel `u64::MAX`: the target signals failure by returning it. -/
def UMAX : Nat := 2 ^ 64 - 1

/-- Modelled from the spec: the file `src/hyperloglog.rs` declared by
`mod hyperloglog;` in `src/main.rs` is not part of the provided sources, so
the `CardinalityEstimator` data model is taken from spec section 3:
`precision` fixed at construction, `registers` of length `2^precision`, and
the append-only, index-aligned `history` stored as the two sequences `seeds`
and `hashes` that `src/main.rs` reads at lines 132. -/
structure HyperLogLog where
  precision : Nat
  registers : List Nat
  seeds : List Nat
  hashes : List Nat
deriving Repr, DecidableEq

/-- Modelled from the spec: `new(precision b)` of the missing
`src/hyperloglog.rs`, "constructs `m` zeroed registers and empty history"
with `m = 2^b` (spec section 4.1). The CLI only calls it at the default
precision 6 (`src/main.rs` line 62). -/
def HyperLogLog.new (b : Nat) : HyperLogLog :=
  { precision := b
    registers := List.replicate (2 ^ b) 0
    seeds := []
    hashes := [] }

/-- Modelled from the spec: `add(seed, outputHash)` of the missing
`src/hyperloglog.rs` (spec section 4.1): derive a 64-bit digest `d` from
`outputHash` via a general-purpose hash (the `digest` argument, external),
use the top `b` bits of `d` as register index `i`, let `w` be the remaining
`64 - b` bits, let `r = 1 +` (leading zero bits of `w` in that field, capped
at `64 - b`), update `registers[i]` to `max(registers[i], r)` and append
`(seed, outputHash)` to the history unconditionally. -/
def HyperLogLog.add (digest : Nat → Nat) (h : HyperLogLog) (seed hash : Nat) :
    HyperLogLog :=
  let b := h.precision
  let d := digest hash % 2 ^ 64
  let i := d / 2 ^ (64 - b)
  let w := d % 2 ^ (64 - b)
  let r := 1 + ((64 - b) - Nat.size w)
  { h with
      registers := h.registers.set i (max (h.registers.getD i 0) r)
      seeds := h.seeds ++ [seed]
      hashes := h.hashes ++ [hash] }

/-- One invocation of the wasm target's `test` entry point
(`self.test.call(&mut self.store, seed)`, `src/main.rs` line 89):
either a trap (`ret = .error msg`, the outer `?` path) or a returned `u64`
(`ret = .ok v`), together with the bytes the target wrote to the stdout and
stderr wasi pipes during this call (written into the shared capture cursors,
even when the call traps). -/
structure CallOut where
  ret : Except String Nat
  outB : Bytes
  errB : Bytes

/-- The external collaborators of the harness, abstracted:
`call` is the wasmtime typed function (mutating the store state `σ`),
`dec` is `String::from_utf8` (`src/main.rs` lines 91 and 92),
`digest` is the hash inside the estimator's `add` (spec section 4.1),
`instantiate` is `Module::from_file` + linker instantiation +
`get_typed_func` (`src/main.rs` lines 64 to 75),
`parse` is `serde_json::from_reader` (line 39),
`ser` is `serde_json::to_writer_pretty` (line 45), and
`writeErr` is the possible I/O failure of `File::create` and the serializing
write (lines 44 and 45): `none` means the write succeeds. -/
structure Env (σ : Type) where
  call : σ → Nat → σ × CallOut
  dec : Bytes → Except String String
  digest : Nat → Nat
  instantiate : String → Except String σ
  parse : Bytes → Except String HyperLogLog
  ser : HyperLogLog → Bytes
  writeErr : String → Option String

/-- `fn load_hll(path)` (`src/main.rs` lines 37 to 41): open the file (a
missing file is an error here) and parse it with serde. `fs` is the read view
of the filesystem. -/
def load_hll (env : Env σ) (fs : String → Option Bytes) (path : String) :
    Except String HyperLogLog :=
  match fs path with
  | none => .error "No such file or directory"
  | some bytes => env.parse bytes

/-- The `WasmTest` session state (`src/main.rs` lines 49 to 56): the target
name, the estimator, the wasmtime store, and the two shared capture buffers
(the cursors behind the stdout/stderr write pipes). -/
structure WasmTest (σ : Type) where
  target : String
  hll : HyperLogLog
  store : σ
  stdoutBuf : Bytes
  stderrBuf : Bytes

/-- `WasmTest::new(target)` (`src/main.rs` lines 59 to 84): load the snapshot
at `"{target}.json"`, discarding ANY load error via `.ok().unwrap_or(...)` in
favour of a fresh estimator at precision 6; then instantiate the wasm module,
which is the only fallible step; fresh capture buffers start empty. -/
def WasmTest.new (env : Env σ) (fs : String → Option Bytes) (target : String) :
    Except String (WasmTest σ) :=
  let hll := (load_hll env fs (target ++ ".json")).toOption.getD (HyperLogLog.new 6)
  match env.instantiate target with
  | .error e => .error e
  | .ok st =>
      .ok { target := target, hll := hll, store := st
            stdoutBuf := [], stderrBuf := [] }

/-- `WasmTest::run(seed)` (`src/main.rs` lines 86 to 97): reset both capture
buffers to empty (lines 87 and 88), call the target (line 89; a trap
propagates as the outer error while the store and buffers keep their
mutations), then: if the result is the sentinel `u64::MAX`, decode the
captured stdout and stderr (either decode failure propagates as the outer
error) and return the `Failure` outcome carrying the formatted diagnostic;
otherwise `hll.add(seed, result)` and return the `Success` outcome.
Returns the mutated session state together with
`anyhow::Result<Result<u64, String>>` as `Except String (Except String Nat)`. -/
def WasmTest.run (env : Env σ) (w : WasmTest σ) (seed : Nat) :
    WasmTest σ × Except String (Except String Nat) :=
  let (st, co) := env.call w.store seed
  let w1 : WasmTest σ :=
    { w with store := st, stdoutBuf := co.outB, stderrBuf := co.errB }
  match co.ret with
  | .error e => (w1, .error e)
  | .ok r =>
      if r = UMAX then
        match env.dec w1.stdoutBuf with
        | .error e => (w1, .error e)
        | .ok so =>
            match env.dec w1.stderrBuf with
            | .error e => (w1, .error e)
            | .ok se =>
                (w1, .ok (.error ("stdout:\n" ++ so ++ "\nstderr:\n" ++ se)))
      else
        ({ w1 with hll := w1.hll.add env.digest seed r }, .ok (.ok r))

/-- `fn save_hll(path, hll)` (`src/main.rs` lines 43 to 47): create the file
and serialize the estimator into it. Returns the result together with the
write-event trace: on success exactly one write of the serialized estimator,
on an I/O failure none. -/
def save_hll (env : Env σ) (path : String) (h : HyperLogLog) :
    Except String Unit × List (String × Bytes) :=
  match env.writeErr path with
  | some e => (.error e, [])
  | none => (.ok (), [(path, env.ser h)])

/-- `WasmTest::save()` (`src/main.rs` lines 99 to 102): save the estimator to
`"{target}.json"`. -/
def WasmTest.save (env : Env σ) (w : WasmTest σ) :
    Except String Unit × List (String × Bytes) :=
  save_hll env (w.target ++ ".json") w.hll

/-- The fuzz loop of the Test branch (`src/main.rs` lines 119 to 124), over
the list of seeds drawn from the rng. Each round runs the target; only an
outer (fatal-shaped) error from `run` matches `if let Err(e)` and is printed;
every round, whatever its outcome, falls through to the next. Returns the
final session state, the trace of printed error messages, and the trace of
seeds actually passed to the adapter. -/
def fuzzLoop (env : Env σ) (w : WasmTest σ) :
    List Nat → WasmTest σ × List String × List Nat
  | [] => (w, [], [])
  | seed :: rest =>
      let (w1, res) := WasmTest.run env w seed
      let printed :=
        match res with
        | .error e => ["Error: " ++ e]
        | .ok _ => []
      let (w2, msgs, inv) := fuzzLoop env w1 rest
      (w2, printed ++ msgs, seed :: inv)

/-- The replay loop of the Verify branch (`src/main.rs` lines 132 to 141),
over the zipped `(seed, hash)` history of the cloned estimator. Each pair
re-runs the target: an outer error of `run` propagates via `?`; otherwise the
outcome is compared against `Ok(hash)` and on any difference (a `Failure`
outcome or a different hash) the loop returns `Err("Verification failed")`
at once; if all pairs match it returns `Ok(())` (line 142 prints the success
banner). Returns the final session state, the trace of seeds passed to the
adapter, and the result. -/
def verifyLoop (env : Env σ) (w : WasmTest σ) :
    List (Nat × Nat) → WasmTest σ × List Nat × Except String Unit
  | [] => (w, [], .ok ())
  | (seed, hash) :: rest =>
      let (w1, res) := WasmTest.run env w seed
      match res with
      | .error e => (w1, [seed], .error e)
      | .ok r =>
          if r = Except.ok hash then
            let (w2, inv, out) := verifyLoop env w1 rest
            (w2, seed :: inv, out)
          else
            (w1, [seed], .error "Verification failed")

/-- The `Commands::Test` branch of `main` (`src/main.rs` lines 109 to 128):
construct the session (fatal on failure), run the fuzz loop over the drawn
seeds, then save the snapshot (fatal on failure) and exit with the save's
result. Returns the exit result, the write-event trace, the printed error
messages, and the seeds passed to the adapter. -/
def mainTest (env : Env σ) (fs : String → Option Bytes) (target : String)
    (seeds : List Nat) :
    Except String Unit × List (String × Bytes) × List String × List Nat :=
  match WasmTest.new env fs target with
  | .error e => (.error e, [], [], [])
  | .ok w =>
      let (w1, msgs, inv) := fuzzLoop env w seeds
      let (sres, writes) := WasmTest.save env w1
      (sres, writes, msgs, inv)

/-- The `Commands::Verify` branch of `main` (`src/main.rs` lines 129 to 144):
construct the session (fatal on failure), clone the loaded estimator
(line 131) and iterate its zipped history with `verifyLoop`. No write is ever
performed. Returns the exit result, the write-event trace (empty: the branch
contains no save), and the seeds passed to the adapter. -/
def mainVerify (env : Env σ) (fs : String → Option Bytes) (target : String) :
    Except String Unit × List (String × Bytes) × List Nat :=
  match WasmTest.new env fs target with
  | .error e => (.error e, [], [])
  | .ok w =>
      let hll := w.hll
      let (_, inv, out) := verifyLoop env w (hll.seeds.zip hll.hashes)
      (out, [], inv)

/-- "Every pair matches": the replayed outcome of each recorded pair, in
order and through the evolving session state, is `Success` with the recorded
hash. -/
def allMatch (env : Env σ) (w : WasmTest σ) : List (Nat × Nat) → Prop
  | [] => True
  | (seed, hash) :: rest =>
      (WasmTest.run env w seed).2 = .ok (.ok hash) ∧
      allMatch env (WasmTest.run env w seed).1 rest

/-! ### Concrete instances used to exercise the embedding -/

/-- A concrete environment over the trivial store: the target's per-call
behaviour and the snapshot parser are the two parameters; the decoder renders
byte lists verbatim, the digest is the identity, instantiation always
succeeds, serialization flattens the history, and writes never fail. -/
def mkEnv (call : Nat → CallOut) (parse : Bytes → Except String HyperLogLog) :
    Env Unit :=
  { call := fun _ seed => ((), call seed)
    dec := fun bs => .ok (toString bs)
    digest := fun n => n
    instantiate := fun _ => .ok ()
    parse := parse
    ser := fun h => h.seeds ++ h.hashes
    writeErr := fun _ => none }

/-- A filesystem with no files at all. -/
def fsEmpty : String → Option Bytes := fun _ => none

/-- A filesystem holding a (malformed) snapshot for target `demo.wasm`. -/
def fsSnap : String → Option Bytes :=
  fun p => if p = "demo.wasm.json" then some [123] else none

/-- A recorded snapshot with the single matching pair `(41, 42)` under the
`envEchoOk` target below. -/
def snapOk : HyperLogLog :=
  { precision := 6, registers := List.replicate 64 0
    seeds := [41], hashes := [42] }

/-- A recorded snapshot whose first pair `(42, 100)` mismatches under the
`envEchoBad` target below (the target now returns 43), with a second pair
behind it that must never be scanned. -/
def snapBad : HyperLogLog :=
  { precision := 6, registers := List.replicate 64 0
    seeds := [42, 7], hashes := [100, 8] }

/-- A target whose every invocation returns the failure sentinel, emitting
one byte on each captured stream; the snapshot parser always fails. -/
def envSent : Env Unit :=
  mkEnv (fun _ => { ret := .ok UMAX, outB := [104], errB := [33] })
    (fun _ => .error "expected value")

/-- A deterministic target returning `seed + 1`, with the snapshot parser
producing `snapOk`. -/
def envEchoOk : Env Unit :=
  mkEnv (fun s => { ret := .ok (s + 1), outB := [], errB := [] })
    (fun _ => .ok snapOk)

/-- The same deterministic target with the snapshot parser producing
`snapBad`. -/
def envEchoBad : Env Unit :=
  mkEnv (fun s => { ret := .ok (s + 1), outB := [], errB := [] })
    (fun _ => .ok snapBad)

/-- A fresh session state over the trivial store. -/
def w0 : WasmTest Unit :=
  { target := "demo.wasm", hll := HyperLogLog.new 6, store := ()
    stdoutBuf := [], stderrBuf := [] }

/-! ### Helper lemmas about a single `run` -/

/-- When the wasm call traps, `run` propagates the trap as the outer error;
the store and capture buffers keep the call's mutations. -/
lemma run_trap (env : Env σ) (w : WasmTest σ) (seed : Nat) (st : σ)
    (co : CallOut) (e : String) (hc : env.call w.store seed = (st, co))
    (hr : co.ret = .error e) :
    WasmTest.run env w seed =
      ({ w with store := st, stdoutBuf := co.outB, stderrBuf := co.errB },
       .error e) := by
  simp [WasmTest.run, hc, hr]

/-- When the call returns the sentinel and both captured streams decode,
`run` returns the `Failure` outcome with the formatted diagnostic and leaves
the estimator untouched. -/
lemma run_sentinel (env : Env σ) (w : WasmTest σ) (seed : Nat) (st : σ)
    (co : CallOut) (so se : String) (hc : env.call w.store seed = (st, co))
    (hr : co.ret = .ok UMAX) (hso : env.dec co.outB = .ok so)
    (hse : env.dec co.errB = .ok se) :
    WasmTest.run env w seed =
      ({ w with store := st, stdoutBuf := co.outB, stderrBuf := co.errB },
       .ok (.error ("stdout:\n" ++ so ++ "\nstderr:\n" ++ se))) := by
  simp [WasmTest.run, hc, hr, hso, hse]

/-- When the call returns a non-sentinel value, `run` records the pair in the
estimator and returns the `Success` outcome. -/
lemma run_success (env : Env σ) (w : WasmTest σ) (seed : Nat) (st : σ)
    (co : CallOut) (r : Nat) (hc : env.call w.store seed = (st, co))
    (hr : co.ret = .ok r) (hne : r ≠ UMAX) :
    WasmTest.run env w seed =
      ({ w with
          store := st
          stdoutBuf := co.outB
          stderrBuf := co.errB
          hll := w.hll.add env.digest seed r },
       .ok (.ok r)) := by
  simp [WasmTest.run, hc, hr, hne]

/-- `run` never changes the target name, and on every path the resulting
store and capture buffers are exactly those produced by the wasm call. -/
lemma run_frame (env : Env σ) (w : WasmTest σ) (seed : Nat) :
    (WasmTest.run env w seed).1.target = w.target ∧
    (WasmTest.run env w seed).1.store = (env.call w.store seed).1 ∧
    (WasmTest.run env w seed).1.stdoutBuf = (env.call w.store seed).2.outB ∧
    (WasmTest.run env w seed).1.stderrBuf = (env.call w.store seed).2.errB := by
  rcases hc : env.call w.store seed with ⟨st, co⟩
  rcases hr : co.ret with e | r
  · simp [run_trap env w seed st co e hc hr, hc]
  · by_cases hs : r = UMAX
    · subst hs
      rcases hso : env.dec co.outB with e | so
      · simp [WasmTest.run, hc, hr, hso]
      · rcases hse : env.dec co.errB with e | se
        · simp [WasmTest.run, hc, hr, hso, hse]
        · simp [run_sentinel env w seed st co so se hc hr hso hse, hc]
    · simp [run_success env w seed st co r hc hr hs, hc]

/-- Two session states that agree outside the estimator differ at most in the
estimator field. -/
lemma WasmTest.eq_up_to_hll {w1 w2 : WasmTest σ} (ht : w1.target = w2.target)
    (hs : w1.store = w2.store) (ho : w1.stdoutBuf = w2.stdoutBuf)
    (he : w1.stderrBuf = w2.stderrBuf) :
    w1 = { w2 with hll := w1.hll } := by
  cases w1; cases w2; simp_all

/-- The outcome of `run` and the non-estimator part of the resulting state do
not depend on the estimator held in the session state: `add` is the only
place the estimator is touched. -/
lemma run_hll_param (env : Env σ) (w : WasmTest σ) (h : HyperLogLog)
    (seed : Nat) :
    (WasmTest.run env { w with hll := h } seed).2 =
      (WasmTest.run env w seed).2 ∧
    (WasmTest.run env { w with hll := h } seed).1 =
      { (WasmTest.run env w seed).1 with
          hll := (WasmTest.run env { w with hll := h } seed).1.hll } := by
  constructor
  · rcases hc : env.call w.store seed with ⟨st, co⟩
    have hc' : env.call (WasmTest.store { w with hll := h }) seed = (st, co) := hc
    rcases hr : co.ret with e | r
    · simp [run_trap env w seed st co e hc hr,
        run_trap env { w with hll := h } seed st co e hc' hr]
    · by_cases hs : r = UMAX
      · subst hs
        rcases hso : env.dec co.outB with e | so
        · simp [WasmTest.run, hc, hc', hr, hso]
        · rcases hse : env.dec co.errB with e | se
          · simp [WasmTest.run, hc, hc', hr, hso, hse]
          · simp [run_sentinel env w seed st co so se hc hr hso hse,
              run_sentinel env { w with hll := h } seed st co so se hc' hr hso hse]
      · simp [run_success env w seed st co r hc hr hs,
          run_success env { w with hll := h } seed st co r hc' hr hs]
  · refine WasmTest.eq_up_to_hll ?_ ?_ ?_ ?_
    · exact (run_frame env { w with hll := h } seed).1.trans
        (run_frame env w seed).1.symm
    · exact (run_frame env { w with hll := h } seed).2.1.trans
        (run_frame env w seed).2.1.symm
    · exact (run_frame env { w with hll := h } seed).2.2.1.trans
        (run_frame env w seed).2.2.1.symm
    · exact (run_frame env { w with hll := h } seed).2.2.2.trans
        (run_frame env w seed).2.2.2.symm

/-! ### Helper lemmas about the loops and session construction -/

/-- Unfolding of one verify step, phrased on the result of `run`. -/
lemma verifyLoop_cons (env : Env σ) (w : WasmTest σ) (seed hash : Nat)
    (rest : List (Nat × Nat)) :
    verifyLoop env w ((seed, hash) :: rest) =
      match (WasmTest.run env w seed).2 with
      | .error e => ((WasmTest.run env w seed).1, [seed], .error e)
      | .ok r =>
          if r = Except.ok hash then
            ((verifyLoop env (WasmTest.run env w seed).1 rest).1,
             seed :: (verifyLoop env (WasmTest.run env w seed).1 rest).2.1,
             (verifyLoop env (WasmTest.run env w seed).1 rest).2.2)
          else
            ((WasmTest.run env w seed).1, [seed], .error "Verification failed") := by
  rcases hrun : WasmTest.run env w seed with ⟨w1, res⟩
  rcases res with e | r
  · simp [verifyLoop, hrun]
  · by_cases hm : r = Except.ok hash
    · simp [verifyLoop, hrun, hm]
    · simp [verifyLoop, hrun, hm]

/-- The verify loop's invocation trace and result do not depend on the
estimator carried in the session state: the per-pair re-invocations append to
the in-memory estimator, but that estimator is never read back. -/
lemma verifyLoop_hll (env : Env σ) :
    ∀ (ps : List (Nat × Nat)) (w : WasmTest σ) (h : HyperLogLog),
      (verifyLoop env { w with hll := h } ps).2 = (verifyLoop env w ps).2
  | [], _, _ => rfl
  | (s, hp) :: rest, w, h => by
    obtain ⟨hres, hst⟩ := run_hll_param env w h s
    rw [verifyLoop_cons, verifyLoop_cons, hres, hst]
    rcases hr2 : (WasmTest.run env w s).2 with e | r
    · rfl
    · by_cases hm : r = Except.ok hp
      · simp only [if_pos hm]
        rw [verifyLoop_hll env rest (WasmTest.run env w s).1
          (WasmTest.run env { w with hll := h } s).1.hll]
      · simp only [if_neg hm]

/-- When the verify loop succeeds, it has invoked the adapter exactly once
per recorded pair, in recorded order. -/
lemma verifyLoop_ok_inv (env : Env σ) :
    ∀ (ps : List (Nat × Nat)) (w : WasmTest σ),
      (verifyLoop env w ps).2.2 = .ok () →
      (verifyLoop env w ps).2.1 = ps.map Prod.fst
  | [], _ => fun _ => rfl
  | (s, hp) :: rest, w => by
    rw [verifyLoop_cons]
    rcases hr2 : (WasmTest.run env w s).2 with e | r
    · intro hcl; exact absurd hcl (by simp)
    · by_cases hm : r = Except.ok hp
      · simp only [if_pos hm, List.map_cons]
        intro hcl
        exact congrArg (List.cons s)
          (verifyLoop_ok_inv env rest (WasmTest.run env w s).1 hcl)
      · simp only [if_neg hm]
        intro hcl; exact absurd hcl (by simp)

/-- When every recorded pair matches on replay, the verify loop succeeds. -/
lemma verifyLoop_of_allMatch (env : Env σ) :
    ∀ (ps : List (Nat × Nat)) (w : WasmTest σ), allMatch env w ps →
      (verifyLoop env w ps).2.2 = .ok ()
  | [], _ => fun _ => rfl
  | (s, hp) :: rest, w => by
    rintro ⟨hmatch, hrest⟩
    rw [verifyLoop_cons, hmatch]
    simp only [if_pos rfl]
    exact verifyLoop_of_allMatch env rest (WasmTest.run env w s).1 hrest

/-- Unfolding of one fuzz round, phrased on the result of `run`. -/
lemma fuzzLoop_cons (env : Env σ) (w : WasmTest σ) (seed : Nat)
    (rest : List Nat) :
    fuzzLoop env w (seed :: rest) =
      ((fuzzLoop env (WasmTest.run env w seed).1 rest).1,
       (match (WasmTest.run env w seed).2 with
        | .error e => ["Error: " ++ e]
        | .ok _ => []) ++
         (fuzzLoop env (WasmTest.run env w seed).1 rest).2.1,
       seed :: (fuzzLoop env (WasmTest.run env w seed).1 rest).2.2) := by
  rcases hrun : WasmTest.run env w seed with ⟨w1, res⟩
  simp [fuzzLoop, hrun]

/-- The fuzz loop never aborts: every drawn seed is passed to the adapter. -/
lemma fuzzLoop_inv (env : Env σ) :
    ∀ (seeds : List Nat) (w : WasmTest σ),
      (fuzzLoop env w seeds).2.2 = seeds
  | [], _ => rfl
  | s :: rest, w => by
    rw [fuzzLoop_cons]
    exact congrArg (List.cons s) (fuzzLoop_inv env rest (WasmTest.run env w s).1)

/-- The fuzz loop preserves the target name of the session state. -/
lemma fuzzLoop_target (env : Env σ) :
    ∀ (seeds : List Nat) (w : WasmTest σ),
      (fuzzLoop env w seeds).1.target = w.target
  | [], _ => rfl
  | s :: rest, w => by
    rw [fuzzLoop_cons]
    exact (fuzzLoop_target env rest (WasmTest.run env w s).1).trans
      (run_frame env w s).1

/-- Characterization of a successful session construction: the wasm module
instantiated, and the estimator is whatever loaded (or the fresh default),
with empty capture buffers and the given target name. -/
lemma new_ok_iff (env : Env σ) (fs : String → Option Bytes) (target : String)
    (w : WasmTest σ) :
    WasmTest.new env fs target = .ok w ↔
      ∃ st, env.instantiate target = .ok st ∧
        w = { target := target
              hll := (load_hll env fs (target ++ ".json")).toOption.getD
                (HyperLogLog.new 6)
              store := st
              stdoutBuf := []
              stderrBuf := [] } := by
  unfold WasmTest.new
  rcases hi : env.instantiate target with e | st
  · simp
  · constructor
    · intro hw
      exact ⟨st, rfl, by simpa using hw.symm⟩
    · rintro ⟨st2, hst2, hw⟩
      obtain rfl : st = st2 := by simpa using hst2
      simp [hw]

/-! ### Helper lemmas about the estimator's history -/

/-- Folding `add` over a list of calls appends exactly the called seeds. -/
lemma foldl_add_seeds (digest : Nat → Nat) :
    ∀ (calls : List (Nat × Nat)) (h0 : HyperLogLog),
      (calls.foldl (fun acc c => acc.add digest c.1 c.2) h0).seeds =
        h0.seeds ++ calls.map Prod.fst
  | [], _ => by simp
  | c :: cs, h0 => by
    rw [List.foldl_cons, foldl_add_seeds digest cs]
    simp [HyperLogLog.add]

/-- Folding `add` over a list of calls appends exactly the called hashes. -/
lemma foldl_add_hashes (digest : Nat → Nat) :
    ∀ (calls : List (Nat × Nat)) (h0 : HyperLogLog),
      (calls.foldl (fun acc c => acc.add digest c.1 c.2) h0).hashes =
        h0.hashes ++ calls.map Prod.snd
  | [], _ => by simp
  | c :: cs, h0 => by
    rw [List.foldl_cons, foldl_add_hashes digest cs]
    simp [HyperLogLog.add]

/-- On every path of `run`, either the estimator is untouched, or the
outcome was `Success r` and the estimator gained exactly `(seed, r)`. -/
lemma run_hll_eq (env : Env σ) (w : WasmTest σ) (seed : Nat) :
    (WasmTest.run env w seed).1.hll = w.hll ∨
    ∃ r, (WasmTest.run env w seed).2 = .ok (.ok r) ∧
      (WasmTest.run env w seed).1.hll = w.hll.add env.digest seed r := by
  rcases hc : env.call w.store seed with ⟨st, co⟩
  rcases hr : co.ret with e | r
  · left; rw [run_trap env w seed st co e hc hr]
  · by_cases hs : r = UMAX
    · subst hs
      rcases hso : env.dec co.outB with e | so
      · left; simp [WasmTest.run, hc, hr, hso]
      · rcases hse : env.dec co.errB with e | se
        · left; simp [WasmTest.run, hc, hr, hso, hse]
        · left; rw [run_sentinel env w seed st co so se hc hr hso hse]
    · right
      exact ⟨r, by rw [run_success env w seed st co r hc hr hs], by
        rw [run_success env w seed st co r hc hr hs]⟩

/-! ### The claims -/

/-- C7: the verify operation consumes the persisted estimator state
read-only. For every environment, filesystem and target, the Verify branch
of `main` performs no filesystem write, whether construction or the replay
comparison succeeds or fails: its write-event trace is empty. -/
theorem C7_verify_never_writes (env : Env σ) (fs : String → Option Bytes)
    (target : String) :
    (mainVerify env fs target).2.1 = ([] : List (String × Bytes)) := by
  rcases hn : WasmTest.new env fs target with e | w
  · simp [mainVerify, hn]
  · rcases hvl : verifyLoop env w (w.hll.seeds.zip w.hll.hashes) with ⟨a, inv, out⟩
    simp [mainVerify, hn, hvl]

/-- C10: both capture buffers are reset to empty before every adapter
invocation (`src/main.rs` lines 87 and 88), so the whole behaviour of `run` —
outcome, diagnostic and resulting state — is the same no matter what the
buffers held from earlier invocations, and afterwards the buffers hold
exactly the bytes this single invocation emitted. -/
theorem C10_buffers_reset_per_invocation (env : Env σ) (w : WasmTest σ)
    (seed : Nat) (b1 e1 b2 e2 : Bytes) :
    WasmTest.run env { w with stdoutBuf := b1, stderrBuf := e1 } seed =
      WasmTest.run env { w with stdoutBuf := b2, stderrBuf := e2 } seed ∧
    (WasmTest.run env w seed).1.stdoutBuf = (env.call w.store seed).2.outB ∧
    (WasmTest.run env w seed).1.stderrBuf = (env.call w.store seed).2.errB :=
  ⟨rfl, (run_frame env w seed).2.2.1, (run_frame env w seed).2.2.2⟩

/-- C4: an invocation whose target returns the sentinel `u64::MAX` is
classified as `Failure` carrying the diagnostic built from the captured
stdout/stderr text, and the estimator is untouched (the state keeps `w.hll`);
any other returned value is wrapped as `Success` and added to the
estimator. -/
theorem C4_sentinel_classification (env : Env σ) (w : WasmTest σ)
    (seed : Nat) (st : σ) (co : CallOut)
    (hc : env.call w.store seed = (st, co)) :
    (∀ so se, co.ret = .ok UMAX → env.dec co.outB = .ok so →
      env.dec co.errB = .ok se →
      WasmTest.run env w seed =
        ({ w with store := st, stdoutBuf := co.outB, stderrBuf := co.errB },
         .ok (.error ("stdout:\n" ++ so ++ "\nstderr:\n" ++ se)))) ∧
    (∀ r, co.ret = .ok r → r ≠ UMAX →
      WasmTest.run env w seed =
        ({ w with
            store := st
            stdoutBuf := co.outB
            stderrBuf := co.errB
            hll := w.hll.add env.digest seed r },
         .ok (.ok r))) :=
  ⟨fun so se hr hso hse => run_sentinel env w seed st co so se hc hr hso hse,
   fun r hr hne => run_success env w seed st co r hc hr hne⟩

/-- Witness for C4: under `envSent` the call returns the sentinel and the
diagnostic carries both captured streams with the estimator untouched; under
`envEchoOk` seed 41 returns 42, which is wrapped as `Success` and added. -/
theorem C4_sentinel_classification_witness :
    WasmTest.run envSent w0 5 =
      ({ w0 with store := (), stdoutBuf := [104], stderrBuf := [33] },
       .ok (.error "stdout:\n[104]\nstderr:\n[33]")) ∧
    WasmTest.run envEchoOk w0 41 =
      ({ w0 with
          store := ()
          stdoutBuf := []
          stderrBuf := []
          hll := w0.hll.add envEchoOk.digest 41 42 },
       .ok (.ok 42)) :=
  ⟨(C4_sentinel_classification envSent w0 5 ()
      { ret := .ok UMAX, outB := [104], errB := [33] } rfl).1
      "[104]" "[33]" rfl rfl rfl,
   (C4_sentinel_classification envEchoOk w0 41 ()
      { ret := .ok 42, outB := [], errB := [] } rfl).2
      42 rfl (by decide)⟩

/-- `getD` commutes with `map` when the default is the image of a default. -/
lemma map_getD (f : Nat × Nat → Nat) :
    ∀ (l : List (Nat × Nat)) (i : Nat) (d : Nat × Nat),
      (l.map f).getD i (f d) = f (l.getD i d)
  | [], i, d => by cases i <;> simp [List.getD]
  | x :: xs, 0, d => by simp [List.getD]
  | x :: xs, i + 1, d => by
    simp only [List.map_cons, List.getD_cons_succ]
    exact map_getD f xs i d

/-- C6: history integrity of the estimator (modelled from the spec, the
estimator source being absent): starting from a freshly constructed
estimator, after any finite sequence of `add(seed, hash)` calls the seeds and
hashes sequences are exactly the called seeds and hashes in order, their
lengths agree and equal the number of calls, and the i-th recorded pair
equals the i-th call's arguments. -/
theorem C6_history_integrity (digest : Nat → Nat) (b : Nat)
    (calls : List (Nat × Nat)) :
    (calls.foldl (fun acc c => acc.add digest c.1 c.2)
        (HyperLogLog.new b)).seeds = calls.map Prod.fst ∧
    (calls.foldl (fun acc c => acc.add digest c.1 c.2)
        (HyperLogLog.new b)).hashes = calls.map Prod.snd ∧
    (calls.foldl (fun acc c => acc.add digest c.1 c.2)
        (HyperLogLog.new b)).seeds.length =
      (calls.foldl (fun acc c => acc.add digest c.1 c.2)
        (HyperLogLog.new b)).hashes.length ∧
    (calls.foldl (fun acc c => acc.add digest c.1 c.2)
        (HyperLogLog.new b)).seeds.length = calls.length ∧
    (∀ i, i < calls.length →
      (calls.foldl (fun acc c => acc.add digest c.1 c.2)
          (HyperLogLog.new b)).seeds.getD i 0 = (calls.getD i (0, 0)).1 ∧
      (calls.foldl (fun acc c => acc.add digest c.1 c.2)
          (HyperLogLog.new b)).hashes.getD i 0 = (calls.getD i (0, 0)).2) := by
  have hs := foldl_add_seeds digest calls (HyperLogLog.new b)
  have hh := foldl_add_hashes digest calls (HyperLogLog.new b)
  have hs0 : (HyperLogLog.new b).seeds = [] := rfl
  have hh0 : (HyperLogLog.new b).hashes = [] := rfl
  rw [hs0, List.nil_append] at hs
  rw [hh0, List.nil_append] at hh
  refine ⟨hs, hh, ?_, ?_, ?_⟩
  · rw [hs, hh]; simp
  · rw [hs]; simp
  · intro i _
    rw [hs, hh]
    exact ⟨map_getD Prod.fst calls i (0, 0), map_getD Prod.snd calls i (0, 0)⟩

/-- Witness for C6: two concrete calls on a fresh precision-6 estimator. -/
theorem C6_history_integrity_witness :
    ([(1, 2), (3, 4)].foldl (fun acc c => acc.add (fun n => n) c.1 c.2)
        (HyperLogLog.new 6)).seeds = [1, 3] ∧
    ([(1, 2), (3, 4)].foldl (fun acc c => acc.add (fun n => n) c.1 c.2)
        (HyperLogLog.new 6)).seeds.getD 1 0 = 3 ∧
    ([(1, 2), (3, 4)].foldl (fun acc c => acc.add (fun n => n) c.1 c.2)
        (HyperLogLog.new 6)).hashes.getD 1 0 = 4 :=
  ⟨(C6_history_integrity (fun n => n) 6 [(1, 2), (3, 4)]).1,
   ((C6_history_integrity (fun n => n) 6 [(1, 2), (3, 4)]).2.2.2.2 1
      (by decide)).1,
   ((C6_history_integrity (fun n => n) 6 [(1, 2), (3, 4)]).2.2.2.2 1
      (by decide)).2⟩

/-- C3: during verify, a recorded pair whose re-invocation yields `Failure`,
or `Success` with a different hash, stops the loop at once with the
verification failure (the fatal error that makes the exit code non-zero),
having invoked the adapter only for that pair and none after it; a matching
pair lets the loop continue; and when every pair matches the loop reports
success. -/
theorem C3_verify_fail_fast (env : Env σ) (w : WasmTest σ) (seed hash : Nat)
    (rest : List (Nat × Nat)) :
    (∀ d, (WasmTest.run env w seed).2 = .ok (.error d) →
      verifyLoop env w ((seed, hash) :: rest) =
        ((WasmTest.run env w seed).1, [seed], .error "Verification failed")) ∧
    (∀ r, (WasmTest.run env w seed).2 = .ok (.ok r) → r ≠ hash →
      verifyLoop env w ((seed, hash) :: rest) =
        ((WasmTest.run env w seed).1, [seed], .error "Verification failed")) ∧
    ((WasmTest.run env w seed).2 = .ok (.ok hash) →
      verifyLoop env w ((seed, hash) :: rest) =
        ((verifyLoop env (WasmTest.run env w seed).1 rest).1,
         seed :: (verifyLoop env (WasmTest.run env w seed).1 rest).2.1,
         (verifyLoop env (WasmTest.run env w seed).1 rest).2.2)) ∧
    (∀ w2 : WasmTest σ, allMatch env w2 ((seed, hash) :: rest) →
      (verifyLoop env w2 ((seed, hash) :: rest)).2.2 = .ok ()) := by
  refine ⟨?_, ?_, ?_, ?_⟩
  · intro d hd
    rw [verifyLoop_cons, hd]
    simp
  · intro r hr hne
    rw [verifyLoop_cons, hr]
    simp [hne]
  · intro hm
    rw [verifyLoop_cons, hm]
    simp
  · intro w2 hm
    exact verifyLoop_of_allMatch env ((seed, hash) :: rest) w2 hm

/-- Witness for C3: under `envEchoBad` the snapshot pair `(42, 100)` replays
to 43 and the loop fails at once without scanning the second pair; under
`envEchoOk` the single pair `(41, 42)` matches and the loop succeeds. -/
theorem C3_verify_fail_fast_witness :
    verifyLoop envEchoBad { w0 with hll := snapBad } [(42, 100), (7, 8)] =
      ((WasmTest.run envEchoBad { w0 with hll := snapBad } 42).1, [42],
       .error "Verification failed") ∧
    (verifyLoop envEchoOk { w0 with hll := snapOk } [(41, 42)]).2.2 =
      .ok () :=
  ⟨(C3_verify_fail_fast envEchoBad { w0 with hll := snapBad } 42 100
      [(7, 8)]).2.1 43 rfl (by decide),
   (C3_verify_fail_fast envEchoOk { w0 with hll := snapOk } 41 42 []).2.2.2
      { w0 with hll := snapOk } ⟨rfl, trivial⟩⟩

/-- The session state loaded by `WasmTest.new` under `envEchoOk`/`fsSnap`:
the snapshot `snapOk` with fresh buffers. -/
def wSnapOk : WasmTest Unit :=
  { target := "demo.wasm", hll := snapOk, store := ()
    stdoutBuf := [], stderrBuf := [] }

/-- C9: the pairs verify checks are exactly the zipped history of the
estimator as loaded at session start: the Verify branch iterates the clone
taken before the first re-invocation (conjunct 1); on success it performs
exactly one adapter invocation per recorded pair, in order (conjunct 2); and
the appends each successful re-invocation makes to the in-memory estimator
change neither the invocation trace nor the result (conjunct 3). -/
theorem C9_verify_iterates_loaded_history (env : Env σ)
    (fs : String → Option Bytes) (target : String) (w : WasmTest σ)
    (h : HyperLogLog) (ps : List (Nat × Nat)) :
    (WasmTest.new env fs target = .ok w →
      mainVerify env fs target =
        ((verifyLoop env w (w.hll.seeds.zip w.hll.hashes)).2.2, [],
         (verifyLoop env w (w.hll.seeds.zip w.hll.hashes)).2.1)) ∧
    ((verifyLoop env w ps).2.2 = .ok () →
      (verifyLoop env w ps).2.1 = ps.map Prod.fst) ∧
    (verifyLoop env { w with hll := h } ps).2 = (verifyLoop env w ps).2 := by
  refine ⟨?_, verifyLoop_ok_inv env ps w, verifyLoop_hll env ps w h⟩
  intro hn
  rcases hvl : verifyLoop env w (w.hll.seeds.zip w.hll.hashes)
    with ⟨a, inv, out⟩
  simp [mainVerify, hn, hvl]

/-- Witness for C9: the snapshot `snapOk` loads and its single pair drives
exactly one invocation; exchanging the in-memory estimator for a fresh one
leaves the replay unchanged. -/
theorem C9_verify_iterates_loaded_history_witness :
    mainVerify envEchoOk fsSnap "demo.wasm" =
      ((verifyLoop envEchoOk wSnapOk
          (wSnapOk.hll.seeds.zip wSnapOk.hll.hashes)).2.2, [],
       (verifyLoop envEchoOk wSnapOk
          (wSnapOk.hll.seeds.zip wSnapOk.hll.hashes)).2.1) ∧
    (verifyLoop envEchoOk wSnapOk [(41, 42)]).2.1 = [41] ∧
    (verifyLoop envEchoOk { wSnapOk with hll := HyperLogLog.new 6 }
        [(41, 42)]).2 =
      (verifyLoop envEchoOk wSnapOk [(41, 42)]).2 :=
  ⟨(C9_verify_iterates_loaded_history envEchoOk fsSnap "demo.wasm" wSnapOk
      (HyperLogLog.new 6) [(41, 42)]).1 rfl,
   (C9_verify_iterates_loaded_history envEchoOk fsSnap "demo.wasm" wSnapOk
      (HyperLogLog.new 6) [(41, 42)]).2.1 rfl,
   (C9_verify_iterates_loaded_history envEchoOk fsSnap "demo.wasm" wSnapOk
      (HyperLogLog.new 6) [(41, 42)]).2.2⟩

/-- Counterexample to C1: with no snapshot file at all, the Verify command
succeeds — it reports verification success (exit code zero) instead of
failing with a missing-snapshot error. -/
theorem C1_counterexample :
    fsEmpty "demo.wasm.json" = none ∧
    mainVerify envEchoOk fsEmpty "demo.wasm" = (.ok (), [], []) :=
  ⟨rfl, rfl⟩

/-- C1 (amended): for every target, calling verify when no snapshot file
exists substitutes a fresh empty estimator, invokes the adapter for no pair,
and reports verification success with exit code zero — there is no
`MissingSnapshot` failure (provided the wasm module itself instantiates). -/
theorem C1_missing_snapshot_verify_passes (env : Env σ)
    (fs : String → Option Bytes) (target : String) (st : σ)
    (hfs : fs (target ++ ".json") = none)
    (hinst : env.instantiate target = .ok st) :
    mainVerify env fs target = (.ok (), [], []) := by
  have hn : WasmTest.new env fs target = .ok
      { target := target, hll := HyperLogLog.new 6, store := st
        stdoutBuf := [], stderrBuf := [] } := by
    rw [new_ok_iff]
    exact ⟨st, hinst, by simp [load_hll, hfs, Except.toOption]⟩
  simp [mainVerify, hn, HyperLogLog.new, verifyLoop]

/-- Witness for the amended C1. -/
theorem C1_missing_snapshot_verify_passes_witness :
    mainVerify envSent fsEmpty "t.wasm" = (.ok (), [], []) :=
  C1_missing_snapshot_verify_passes envSent fsEmpty "t.wasm" () rfl rfl

/-- Counterexample to C2: a snapshot file that is present but malformed (the
parser rejects it) does NOT abort the session: construction succeeds with a
fresh estimator, exactly as for a missing file. -/
theorem C2_counterexample :
    fsSnap "demo.wasm.json" = some [123] ∧
    envSent.parse [123] = .error "expected value" ∧
    WasmTest.new envSent fsSnap "demo.wasm" =
      .ok { target := "demo.wasm", hll := HyperLogLog.new 6, store := ()
            stdoutBuf := [], stderrBuf := [] } :=
  ⟨rfl, rfl, rfl⟩

/-- C2 (amended): on session start a missing snapshot file is treated as an
absent snapshot (fresh estimator, no error) — and so is a present but
malformed one: every load error is discarded by `.ok().unwrap_or(...)` and a
fresh estimator is substituted; session construction can only fail on module
instantiation. -/
theorem C2_load_never_fatal (env : Env σ) (fs : String → Option Bytes)
    (target : String) (st : σ)
    (hinst : env.instantiate target = .ok st) :
    (fs (target ++ ".json") = none →
      WasmTest.new env fs target = .ok
        { target := target, hll := HyperLogLog.new 6, store := st
          stdoutBuf := [], stderrBuf := [] }) ∧
    (∀ bytes e, fs (target ++ ".json") = some bytes →
      env.parse bytes = .error e →
      WasmTest.new env fs target = .ok
        { target := target, hll := HyperLogLog.new 6, store := st
          stdoutBuf := [], stderrBuf := [] }) := by
  constructor
  · intro hfs
    rw [new_ok_iff]
    exact ⟨st, hinst, by simp [load_hll, hfs, Except.toOption]⟩
  · intro bytes e hfs hp
    rw [new_ok_iff]
    exact ⟨st, hinst, by simp [load_hll, hfs, hp, Except.toOption]⟩

/-- Witness for the amended C2: one missing file, one malformed file. -/
theorem C2_load_never_fatal_witness :
    WasmTest.new envSent fsEmpty "a.wasm" = .ok
      { target := "a.wasm", hll := HyperLogLog.new 6, store := ()
        stdoutBuf := [], stderrBuf := [] } ∧
    WasmTest.new envSent fsSnap "demo.wasm" = .ok
      { target := "demo.wasm", hll := HyperLogLog.new 6, store := ()
        stdoutBuf := [], stderrBuf := [] } :=
  ⟨(C2_load_never_fatal envSent fsEmpty "a.wasm" () rfl).1 rfl,
   (C2_load_never_fatal envSent fsSnap "demo.wasm" () rfl).2 [123]
     "expected value" rfl rfl⟩

/-- Counterexample to C5: a fuzz round whose invocation yields a
`Failure(diagnostic)` outcome prints NOTHING — the diagnostic is not
reported. The loop does continue (both seeds are invoked) and the failure is
not fed into the estimator, but the reporting part of the claim is false:
the `if let Err(e)` at `src/main.rs` line 121 only matches the outer
adapter error, never the `Ok(Err(diagnostic))` failure outcome. -/
theorem C5_counterexample :
    (WasmTest.run envSent w0 5).2 =
      .ok (.error "stdout:\n[104]\nstderr:\n[33]") ∧
    (fuzzLoop envSent w0 [5, 6]).2.1 = [] ∧
    (fuzzLoop envSent w0 [5, 6]).2.2 = [5, 6] ∧
    (fuzzLoop envSent w0 [5, 6]).1.hll = w0.hll :=
  ⟨rfl, rfl, rfl, rfl⟩

/-- C5 (amended): in every fuzz-loop round whose invocation yields a
`Failure(diagnostic)` outcome, the failure is non-fatal — the loop continues
with the remaining rounds — and the failed invocation is not fed into the
estimator; but the diagnostic is NOT reported: the round contributes nothing
to the printed-message trace. -/
theorem C5_failure_silent_nonfatal (env : Env σ) (w : WasmTest σ)
    (seed : Nat) (rest : List Nat) (d : String)
    (hf : (WasmTest.run env w seed).2 = .ok (.error d)) :
    fuzzLoop env w (seed :: rest) =
      ((fuzzLoop env (WasmTest.run env w seed).1 rest).1,
       (fuzzLoop env (WasmTest.run env w seed).1 rest).2.1,
       seed :: (fuzzLoop env (WasmTest.run env w seed).1 rest).2.2) ∧
    (WasmTest.run env w seed).1.hll = w.hll := by
  constructor
  · rw [fuzzLoop_cons, hf]
    simp
  · rcases run_hll_eq env w seed with hu | ⟨r, hr, _⟩
    · exact hu
    · rw [hf] at hr
      exact absurd hr (by simp)

/-- Witness for the amended C5. -/
theorem C5_failure_silent_nonfatal_witness :
    fuzzLoop envSent w0 [7] =
      ((fuzzLoop envSent (WasmTest.run envSent w0 7).1 []).1,
       (fuzzLoop envSent (WasmTest.run envSent w0 7).1 []).2.1,
       7 :: (fuzzLoop envSent (WasmTest.run envSent w0 7).1 []).2.2) ∧
    (WasmTest.run envSent w0 7).1.hll = w0.hll :=
  C5_failure_silent_nonfatal envSent w0 7 []
    "stdout:\n[104]\nstderr:\n[33]" rfl

/-- C8: the Test command exits non-zero only when session construction or
the snapshot save fails. Whatever the per-round outcomes — including a run
in which every invocation fails — every drawn seed is still passed to the
adapter, the final estimator snapshot is written, and the exit result is
success; conversely, an error exit can only originate from construction or
the save. -/
theorem C8_test_exit_zero_and_saves (env : Env σ)
    (fs : String → Option Bytes) (target : String) (seeds : List Nat)
    (w : WasmTest σ) :
    (WasmTest.new env fs target = .ok w →
      env.writeErr (target ++ ".json") = none →
      (mainTest env fs target seeds).1 = .ok () ∧
      (mainTest env fs target seeds).2.1 =
        [(target ++ ".json", env.ser (fuzzLoop env w seeds).1.hll)] ∧
      (mainTest env fs target seeds).2.2.2 = seeds) ∧
    (∀ e, (mainTest env fs target seeds).1 = .error e →
      WasmTest.new env fs target = .error e ∨
      env.writeErr (target ++ ".json") = some e) := by
  constructor
  · intro hn hwe
    have htgt : (fuzzLoop env w seeds).1.target = target := by
      rw [fuzzLoop_target env seeds w]
      obtain ⟨st, _, hw⟩ := (new_ok_iff env fs target w).1 hn
      rw [hw]
    have hinv := fuzzLoop_inv env seeds w
    rcases hfl : fuzzLoop env w seeds with ⟨w1, msgs, inv⟩
    rw [hfl] at htgt hinv
    simp only [mainTest, hn, hfl, WasmTest.save, save_hll] at *
    rw [htgt, hwe]
    exact ⟨rfl, rfl, hinv⟩
  · intro e he
    rcases hn : WasmTest.new env fs target with e2 | w2
    · simp only [mainTest, hn] at he
      obtain rfl : e2 = e := by simpa using he
      exact .inl rfl
    · have htgt : (fuzzLoop env w2 seeds).1.target = target := by
        rw [fuzzLoop_target env seeds w2]
        obtain ⟨st, _, hw⟩ := (new_ok_iff env fs target w2).1 hn
        rw [hw]
      rcases hfl : fuzzLoop env w2 seeds with ⟨w1, msgs, inv⟩
      rw [hfl] at htgt
      have htgt2 : w1.target = target := htgt
      simp only [mainTest, hn, hfl, WasmTest.save, save_hll, htgt2] at he
      rcases hwe : env.writeErr (target ++ ".json") with _ | e2
      · simp [hwe] at he
      · simp only [hwe] at he
        obtain rfl : e2 = e := by simpa using he
        exact .inr rfl

/-- Witness for C8: a run whose every invocation returns the failure
sentinel still saves the (unchanged) snapshot and exits zero, with both
drawn seeds invoked. -/
theorem C8_test_exit_zero_and_saves_witness :
    (mainTest envSent fsEmpty "demo.wasm" [5, 6]).1 = .ok () ∧
    (mainTest envSent fsEmpty "demo.wasm" [5, 6]).2.1 =
      [("demo.wasm.json", envSent.ser (fuzzLoop envSent w0 [5, 6]).1.hll)] ∧
    (mainTest envSent fsEmpty "demo.wasm" [5, 6]).2.2.2 = [5, 6] :=
  (C8_test_exit_zero_and_saves envSent fsEmpty "demo.wasm" [5, 6] w0).1
    rfl rfl
